import Mathlib

/-!
Shallow embedding of `queries-core/src/pipeline/nlu_engine.rs` (SnipsNLUEngine:
`parse`, `extract_slot`, `tag`, `tag_seen_entities`, and the free functions
`extract_custom_entity` / `extract_builtin_entity`), together with the
surrounding data model from `pipeline::configuration` and
`pipeline::{Slot, SlotValue, IntentParserResult}`.

Rust `HashMap`s are modelled as association lists with first-hit lookup;
Rust `Result` is modelled as `Except String` (the engine's errors are built
with `format!` strings such as `"Unknown intent: {}"`).  Intent-parsing
strategies and the Rustling builtin-entity recognizer are external
collaborators and are modelled as records of functions.  Helper functions of
this repository that live outside the provided source file
(`tokenize`, `compute_all_ngrams`, `substring_with_char_range`,
`enrich_entities`, `tag_builtin_entities`, `disambiguate_tagged_entities`,
`BuiltinEntityKind::from_identifier`) are modelled from the spec, each marked
`Modelled from the spec:` in its doc comment.
-/

namespace SnipsNLU

/-- Association-list model of `HashMap::get`: first binding of the key wins
(keys of a Rust `HashMap` are unique, so first-hit lookup is faithful). -/
def lookupKey {α : Type} (m : List (String × α)) (k : String) : Option α :=
  (m.find? (fun p => p.1 == k)).map Prod.snd

/-- Association-list model of `HashMap::contains_key`. -/
def containsKey {α : Type} (m : List (String × α)) (k : String) : Bool :=
  (lookupKey m k).isSome

/-- `pipeline::configuration::Entity`: utterance map (surface string to
canonical reference value) plus the extensibility flag. -/
structure Entity where
  utterances : List (String × String)
  automatically_extensible : Bool
deriving DecidableEq, Repr

/-- `pipeline::SlotValue`: tagged union of a custom (string) value and a
builtin structured value.  The builtin payload is opaque to the engine core
and is modelled as a string token. -/
inductive SlotValue where
  | Custom (value : String)
  | Builtin (value : String)
deriving DecidableEq, Repr

/-- `pipeline::Slot`.  A character range is a half-open pair of offsets. -/
structure Slot where
  raw_value : String
  value : SlotValue
  range : Option (Nat × Nat)
  entity : String
  slot_name : String
deriving DecidableEq, Repr

/-- `pipeline::IntentClassifierResult`.  The f32 probability is opaque to
every operation of the core and is modelled as a rational. -/
structure IntentClassifierResult where
  intent_name : String
  probability : Rat
deriving DecidableEq, Repr

/-- `pipeline::IntentParserResult`: the value returned by `parse`. -/
structure IntentParserResult where
  input : String
  intent : Option IntentClassifierResult
  slots : Option (List Slot)
deriving DecidableEq, Repr

/-- `TaggedEntity` from `nlu_engine.rs`. -/
structure TaggedEntity where
  value : String
  range : Option (Nat × Nat)
  entity : String
  slot_name : Option String
deriving DecidableEq, Repr

/-- A token as produced by `utils::token::tokenize`: surface value plus the
half-open character range it covers in the original text. -/
structure Token where
  value : String
  char_range : Nat × Nat
deriving DecidableEq, Repr

/-- A match returned by the Rustling builtin-entity recognizer: the character
range it covers, the (opaque) structured value, and the identifier of the
builtin entity kind it belongs to. -/
structure RustlingEntity where
  range : Nat × Nat
  entity : String
  kind : String
deriving DecidableEq, Repr

/-- The `RustlingParser` collaborator: `extract_entities(text, kinds_filter)`
returns matches ordered by the recognizer's own priority. -/
structure RustlingParser where
  extract_entities : String → Option (List String) → List RustlingEntity

/-- The `IntentParser` trait: one classification call and one slot-filling
call, both fallible.  Concrete strategies are external collaborators. -/
structure IntentParser where
  get_intent : String → Option (List String) → Except String (Option IntentClassifierResult)
  get_slots : String → String → Except String (List Slot)

/-- `SnipsNLUEngine`: the immutable state built by `new` out of the
configuration.  `builtinEntityParser` is the field `builtin_entity_parser`
of the Rust struct. -/
structure SnipsNLUEngine where
  language : String
  parsers : List IntentParser
  entities : List (String × Entity)
  intents_data_sizes : List (String × Nat)
  slot_name_mapping : List (String × List (String × String))
  builtinEntityParser : RustlingParser

/-- Modelled from the spec: `utils::string::substring_with_char_range`
extracts the substring of `s` covered by the half-open character range `r`
(spec section 4.2: "the exact substring of the input covered by the match's
range", ranges being "half-open character offsets into the original input"). -/
def substring_with_char_range (s : String) (r : Nat × Nat) : String :=
  String.mk ((s.data.drop r.1).take (r.2 - r.1))

/-- Modelled from the spec: `utils::token::tokenize` — "tokenize(text) ->
ordered sequence of \x7bsurface value, char_range\x7d" (spec section 6).
Whitespace-separated maximal runs of non-space characters, with the
half-open character range of each run; `state` carries the start offset and
the reversed characters of the token currently being read. -/
def tokenizeAux : List Char → Nat → Option (Nat × List Char) → List Token
  | [], _, none => []
  | [], i, some (s, acc) => [⟨String.mk acc.reverse, (s, i)⟩]
  | c :: rest, i, none =>
      if c = ' ' then tokenizeAux rest (i + 1) none
      else tokenizeAux rest (i + 1) (some (i, [c]))
  | c :: rest, i, some (s, acc) =>
      if c = ' ' then ⟨String.mk acc.reverse, (s, i)⟩ :: tokenizeAux rest (i + 1) none
      else tokenizeAux rest (i + 1) (some (s, c :: acc))

/-- Modelled from the spec: `tokenize` over the characters of the text. -/
def tokenize (text : String) : List Token :=
  tokenizeAux text.data 0 none

/-- Modelled from the spec: `utils::token::compute_all_ngrams` — "Enumerate
all contiguous token n-grams (every sub-sequence of consecutive tokens, for
all lengths up to the full token count)" (spec section 4.4).  Each n-gram is
the space-joined surface string paired with the list of token indexes it
covers. -/
def compute_all_ngrams (toks : List String) (maxLen : Nat) : List (String × List Nat) :=
  (List.range toks.length).flatMap fun i =>
    (List.range' 1 (min maxLen (toks.length - i))).map fun l =>
      (String.intercalate " " ((toks.drop i).take l), List.range' i l)

/-- Do two optional half-open character ranges overlap?  Only present ranges
can overlap; `r1 = [s1, e1)` and `r2 = [s2, e2)` overlap iff `s1 < e2` and
`s2 < e1`. -/
def rangesOverlap : Option (Nat × Nat) → Option (Nat × Nat) → Bool
  | some r1, some r2 => decide (r1.1 < r2.2 ∧ r2.1 < r1.2)
  | _, _ => false

/-- Modelled from the spec: `pipeline::tagging_utils::enrich_entities` —
"Candidates are merged into a running accepted list greedily ... a candidate
is accepted if and only if its character range does not overlap any range
already accepted" (spec section 4.4), the first argument being the
already-accepted list, which takes priority. -/
def enrich_entities (acc : List TaggedEntity) (candidates : List TaggedEntity) :
    List TaggedEntity :=
  candidates.foldl
    (fun cur c =>
      if cur.any (fun t => rangesOverlap t.range c.range) then cur else cur ++ [c])
    acc

/-- Modelled from the spec: `pipeline::tagging_utils::tag_builtin_entities` —
"Independently obtain all builtin-entity matches for the same text from the
external recognizer (language-scoped, unfiltered by entity kind), producing
TaggedEntity items with slot_name: None" (spec section 4.4). -/
def tag_builtin_entities (recognizer : RustlingParser) (text : String) :
    List TaggedEntity :=
  (recognizer.extract_entities text none).map fun r =>
    { value := substring_with_char_range text r.range
      range := some r.range
      entity := r.kind
      slot_name := none }

/-- Modelled from the spec: `pipeline::tagging_utils::disambiguate_tagged_entities`
— "assigns each span a slot_name using the intent's slot-name mapping (entity
name → argument name)" (spec section 4.4); where an entity is shared by
several argument names the first-declared argument is chosen (the spec leaves
the rule open and asks for a deterministic choice); spans that already carry a
slot_name (the classifier baseline) keep it. -/
def disambiguateOne (slotNameMapping : List (String × String)) (t : TaggedEntity) :
    TaggedEntity :=
  match t.slot_name with
  | some _ => t
  | none =>
      match (slotNameMapping.find? (fun p => p.2 == t.entity)).map Prod.fst with
      | some sn => { t with slot_name := some sn }
      | none => t

/-- Modelled from the spec: the disambiguation pass maps the per-span
assignment over the merged list. -/
def disambiguate_tagged_entities (tes : List TaggedEntity)
    (slotNameMapping : List (String × String)) : List TaggedEntity :=
  tes.map (disambiguateOne slotNameMapping)

/-- Modelled from the spec: the identifiers of the builtin entity kinds
recognized by `BuiltinEntityKind::from_identifier` (spec sections 1 and 8:
dates, numbers, durations, etc.; the example scenario uses `snips/number`). -/
def builtinEntityKindIdentifiers : List String :=
  ["snips/number", "snips/ordinal", "snips/datetime", "snips/duration",
   "snips/temperature", "snips/amountOfMoney", "snips/percentage"]

/-- Modelled from the spec: `BuiltinEntityKind::from_identifier` succeeds
exactly on the recognized builtin entity kind identifiers and fails on any
other string. -/
def fromIdentifier (s : String) : Except String String :=
  if builtinEntityKindIdentifiers.contains s then .ok s
  else .error ("Unknown entity kind: " ++ s)

/-- The slot-normalization closure inside `parse` (nlu_engine.rs lines
70-86): look the entity up in the Catalog; on an utterance hit replace the
value with the canonical `Custom(reference_value)`; on a miss keep the slot
iff the entity is automatically extensible; a slot of an uncatalogued entity
passes through unchanged. -/
def normalizeSlot (entities : List (String × Entity)) (slot : Slot) : Option Slot :=
  match lookupKey entities slot.entity with
  | some entity =>
      match lookupKey entity.utterances slot.raw_value with
      | some reference_value => some { slot with value := SlotValue.Custom reference_value }
      | none => if entity.automatically_extensible then some slot else none
  | none => some slot

/-- The strategy waterfall of `parse` (nlu_engine.rs lines 64-97): try each
parser in order; the first non-empty classification wins and its slots are
normalized; when no parser classifies, intent and slots are both `none`. -/
def parseLoop (entities : List (String × Entity)) (input : String)
    (set_intents : Option (List String)) :
    List IntentParser → Except String IntentParserResult
  | [] => .ok { input := input, intent := none, slots := none }
  | parser :: rest =>
      match parser.get_intent input set_intents with
      | .error e => .error e
      | .ok none => parseLoop entities input set_intents rest
      | .ok (some classification_result) =>
          match parser.get_slots input classification_result.intent_name with
          | .error e => .error e
          | .ok slots =>
              .ok { input := input
                    intent := some classification_result
                    slots := some (slots.filterMap (normalizeSlot entities)) }

/-- `SnipsNLUEngine::parse` (nlu_engine.rs lines 56-99).  The
`intents_filter` list is forwarded to the strategies (the Rust code converts
it to a `HashSet` first; strategies treat it as a set, so the list is passed
through unchanged here). -/
def parse (e : SnipsNLUEngine) (input : String) (intents_filter : Option (List String)) :
    Except String IntentParserResult :=
  if e.parsers.isEmpty then
    .ok { input := input, intent := none, slots := none }
  else
    parseLoop e.entities input intents_filter e.parsers

/-- `extract_custom_entity` (nlu_engine.rs lines 129-157): whole-input exact
match against the utterance map; on a hit the canonical value, on a miss the
raw input echoed back iff the entity is extensible. -/
def extract_custom_entity (input entity_name sname : String) (custom_entity : Entity) :
    Option Slot :=
  match lookupKey custom_entity.utterances input with
  | some reference_value =>
      some { raw_value := input
             value := SlotValue.Custom reference_value
             range := none
             entity := entity_name
             slot_name := sname }
  | none =>
      if custom_entity.automatically_extensible then
        some { raw_value := input
               value := SlotValue.Custom input
               range := none
               entity := entity_name
               slot_name := sname }
      else none

/-- `extract_builtin_entity` (nlu_engine.rs lines 159-176): resolve the
entity kind from its identifier (propagating failure), run the recognizer
restricted to that kind, and keep the first match. -/
def extract_builtin_entity (input entity_name sname : String)
    (recognizer : RustlingParser) : Except String (Option Slot) :=
  match fromIdentifier entity_name with
  | .error e => .error e
  | .ok builtin_entity_kind =>
      .ok ((recognizer.extract_entities input (some [builtin_entity_kind])).head?.map
        fun rustlin_entity =>
          { raw_value := substring_with_char_range input rustlin_entity.range
            value := SlotValue.Builtin rustlin_entity.entity
            range := none
            entity := entity_name
            slot_name := sname })

/-- `SnipsNLUEngine::extract_slot` (nlu_engine.rs lines 107-126). -/
def extract_slot (e : SnipsNLUEngine) (input : String) (intent_name sname : String) :
    Except String (Option Slot) :=
  match lookupKey e.slot_name_mapping intent_name with
  | none => .error ("Unknown intent: " ++ intent_name)
  | some mapping =>
      match lookupKey mapping sname with
      | none => .error ("Unknown slot: " ++ sname)
      | some entity_name =>
          match lookupKey e.entities entity_name with
          | some custom_entity =>
              .ok (extract_custom_entity input entity_name sname custom_entity)
          | none => extract_builtin_entity input entity_name sname e.builtinEntityParser

/-- `DEFAULT_THRESHOLD` (nlu_engine.rs line 178). -/
def DEFAULT_THRESHOLD : Nat := 5

/-- The conversion from a parsed `Slot` to a `TaggedEntity` inside `tag`
(nlu_engine.rs lines 206-211): the slot name is carried as `some`. -/
def slotToTagged (s : Slot) : TaggedEntity :=
  { value := s.raw_value
    range := s.range
    entity := s.entity
    slot_name := some s.slot_name }

/-- Token access `tokens[i]` of the Rust code (always in bounds there because
n-gram indexes index the token list). -/
def tokenAt (tokens : List Token) (i : Nat) : Token :=
  tokens.getD i ⟨"", (0, 0)⟩

/-- The candidate a matching n-gram produces (nlu_engine.rs lines 250-261):
the character span runs from the first matched token's start boundary to the
last matched token's end boundary, and the value is the substring of the
original text over that span. -/
def mkNgramCandidate (text : String) (tokens : List Token) (ngram_indexes : List Nat)
    (entity_name : String) : Option TaggedEntity :=
  match ngram_indexes.head?, ngram_indexes.getLast? with
  | some first, some last =>
      let range_start := (tokenAt tokens first).char_range.1
      let range_end := (tokenAt tokens last).char_range.2
      let range := (range_start, range_end)
      some { value := substring_with_char_range text range
             range := some range
             entity := entity_name
             slot_name := none }
  | _, _ => none

/-- The inner entity loop of `tag_seen_entities` (nlu_engine.rs lines
241-263): scan the entities; an n-gram matching a second entity's utterances
makes the candidate ambiguous, which discards it and stops the scan (the
Rust `break` with `ngram_entity = None`). -/
def ngramEntityLoop (text : String) (tokens : List Token) (ngram : String)
    (ngram_indexes : List Nat) :
    List (String × Entity) → Option TaggedEntity → Option TaggedEntity
  | [], acc => acc
  | (entity_name, entity_data) :: rest, acc =>
      if containsKey entity_data.utterances ngram then
        if acc.isSome then none
        else
          match mkNgramCandidate text tokens ngram_indexes entity_name with
          | some c => ngramEntityLoop text tokens ngram ngram_indexes rest (some c)
          | none => ngramEntityLoop text tokens ngram ngram_indexes rest acc
      else ngramEntityLoop text tokens ngram ngram_indexes rest acc

/-- The candidate (if any) `tag_seen_entities` derives from one n-gram. -/
def ngramEntityFor (text : String) (tokens : List Token)
    (entities : List (String × Entity)) (ng : String × List Nat) : Option TaggedEntity :=
  ngramEntityLoop text tokens ng.1 ng.2 entities none

/-- Stable insertion step for the descending-by-index-count sort of
`tag_seen_entities` (`le a b` means `a` may come before `b`). -/
def insertByLe {α : Type} (le : α → α → Bool) (x : α) : List α → List α
  | [] => [x]
  | y :: ys => if le x y then x :: y :: ys else y :: insertByLe le x ys

/-- Stable insertion sort, modelling Rust's stable `sort_by_key`. -/
def sortByLe {α : Type} (le : α → α → Bool) : List α → List α
  | [] => []
  | x :: xs => insertByLe le x (sortByLe le xs)

/-- `SnipsNLUEngine::tag_seen_entities` (nlu_engine.rs lines 226-269):
restrict the Catalog to the intent's entities, enumerate all token n-grams
sorted longest-first, derive at most one unambiguous candidate per n-gram and
merge the candidates under the non-overlap rule. -/
def tag_seen_entities (e : SnipsNLUEngine) (text : String)
    (intent_entities : List String) : List TaggedEntity :=
  let entities := e.entities.filter (fun p => intent_entities.contains p.1)
  let tokens := tokenize text
  let token_values := tokens.map Token.value
  let ngrams := compute_all_ngrams token_values tokens.length
  let sorted := sortByLe (fun a b => b.2.length ≤ a.2.length) ngrams
  sorted.foldl
    (fun tagged_entities ng =>
      match ngramEntityFor text tokens entities ng with
      | some ngram_entity => enrich_entities tagged_entities [ngram_entity]
      | none => tagged_entities)
    []

/-- `SnipsNLUEngine::tag` (nlu_engine.rs lines 190-224): resolve the intent's
data size and slot-name mapping (failing `Unknown intent` otherwise), compute
the classifier baseline from `parse` restricted to the intent, return it
unmodified at or above the threshold, and otherwise merge seen-entity
candidates, builtin candidates and the baseline, then disambiguate. -/
def tag (e : SnipsNLUEngine) (text intent : String)
    (small_data_regime_threshold : Option Nat) : Except String (List TaggedEntity) :=
  match lookupKey e.intents_data_sizes intent with
  | none => .error ("Unknown intent: " ++ intent)
  | some intent_data_size =>
      match lookupKey e.slot_name_mapping intent with
      | none => .error ("Unknown intent: " ++ intent)
      | some slotNameMapping =>
          let intent_entities := slotNameMapping.map Prod.snd
          let threshold := small_data_regime_threshold.getD DEFAULT_THRESHOLD
          match parse e text (some [intent]) with
          | .error err => .error err
          | .ok result =>
              let parsed_entities :=
                (result.slots.map (fun slots => slots.map slotToTagged)).getD []
              if intent_data_size ≥ threshold then .ok parsed_entities
              else
                let tagged_seen_entities := tag_seen_entities e text intent_entities
                let tagged_builtin_entities :=
                  tag_builtin_entities e.builtinEntityParser text
                let t1 := enrich_entities tagged_seen_entities tagged_builtin_entities
                let t2 := enrich_entities t1 parsed_entities
                .ok (disambiguate_tagged_entities t2 slotNameMapping)

/-! ### Concrete engines used by the witnesses -/

/-- Witness for C5 at a concrete engine: a first strategy that does not
classify and a second one that does; the second one's classification and
slots are returned. -/
def c5ParserA : IntentParser :=
  { get_intent := fun _ _ => .ok none
    get_slots := fun _ _ => .ok [] }

def c5ParserB : IntentParser :=
  { get_intent := fun _ _ => .ok (some { intent_name := "MakeCoffee", probability := 1 })
    get_slots := fun _ _ =>
      .ok [{ raw_value := "two"
             value := SlotValue.Builtin "Number(2.0)"
             range := some (8, 11)
             entity := "snips/number"
             slot_name := "number_of_cups" }] }

def c5Engine : SnipsNLUEngine :=
  { language := "en"
    parsers := [c5ParserA, c5ParserB]
    entities := []
    intents_data_sizes := []
    slot_name_mapping := []
    builtinEntityParser := ⟨fun _ _ => []⟩ }

/-- Witness for C6 at a concrete engine with an empty strategy list. -/
def c6Engine : SnipsNLUEngine :=
  { language := "en"
    parsers := []
    entities := []
    intents_data_sizes := []
    slot_name_mapping := []
    builtinEntityParser := ⟨fun _ _ => []⟩ }

/-- A strategy that classifies every input as `MakeCoffee` and returns one
slot whose value field is not the raw value echoed back (the `Slot` value a
strategy produces is unconstrained by the engine). -/
def c1Parser : IntentParser :=
  { get_intent := fun _ _ => .ok (some { intent_name := "MakeCoffee", probability := 1 })
    get_slots := fun _ _ =>
      .ok [{ raw_value := "decaf"
             value := SlotValue.Custom "XYZ"
             range := some (0, 5)
             entity := "coffee_type"
             slot_name := "ct" }] }

def c1Engine : SnipsNLUEngine :=
  { language := "en"
    parsers := [c1Parser]
    entities := [("coffee_type", { utterances := [("espresso", "Espresso")]
                                   automatically_extensible := true })]
    intents_data_sizes := []
    slot_name_mapping := []
    builtinEntityParser := ⟨fun _ _ => []⟩ }

/-- Witness for C2: a concrete engine whose intent has exactly 5 training
examples; with the default threshold `tag` returns the baseline. -/
def c2Parser : IntentParser :=
  { get_intent := fun _ _ => .ok (some { intent_name := "MakeCoffee", probability := 1 })
    get_slots := fun _ _ =>
      .ok [{ raw_value := "espresso"
             value := SlotValue.Custom "espresso"
             range := some (0, 8)
             entity := "coffee_type"
             slot_name := "ct" }] }

def c2Engine : SnipsNLUEngine :=
  { language := "en"
    parsers := [c2Parser]
    entities := [("coffee_type", { utterances := [("espresso", "Espresso")]
                                   automatically_extensible := false })]
    intents_data_sizes := [("MakeCoffee", 5)]
    slot_name_mapping := [("MakeCoffee", [("ct", "coffee_type")])]
    builtinEntityParser := ⟨fun _ _ => []⟩ }

/-- Witness for C7 at concrete engines: an utterance hit on a Catalog entity
and a builtin first-match for an uncatalogued entity. -/
def c7Recognizer : RustlingParser :=
  ⟨fun _ kinds =>
    match kinds with
    | some ["snips/number"] => [{ range := (8, 11), entity := "Number(2.0)", kind := "snips/number" }]
    | _ => []⟩

def c7Engine : SnipsNLUEngine :=
  { language := "en"
    parsers := []
    entities := [("coffee_type", { utterances := [("espresso", "Espresso")]
                                   automatically_extensible := false })]
    intents_data_sizes := [("MakeCoffee", 1)]
    slot_name_mapping := [("MakeCoffee", [("ct", "coffee_type"), ("number_of_cups", "snips/number")])]
    builtinEntityParser := c7Recognizer }

/-- Witness for C10: a slot mapped to the entity "mystery", absent from the
Catalog and not a builtin identifier. -/
def c10Engine : SnipsNLUEngine :=
  { language := "en"
    parsers := []
    entities := []
    intents_data_sizes := []
    slot_name_mapping := [("I", [("s", "mystery")])]
    builtinEntityParser := ⟨fun _ _ => []⟩ }

/-- Witness engine for C9 and C3: the Catalog knows `fruit` with the single
utterance "apple"; the recognizer finds a number over "pie". -/
def c9Engine : SnipsNLUEngine :=
  { language := "en"
    parsers := []
    entities := [("fruit", { utterances := [("apple", "Apple")]
                             automatically_extensible := false })]
    intents_data_sizes := [("I", 0)]
    slot_name_mapping := [("I", [("slot1", "fruit")])]
    builtinEntityParser := ⟨fun _ _ => [{ range := (6, 9), entity := "Number(3.0)",
                                          kind := "snips/number" }]⟩ }

/-- No two entries of the list have overlapping character ranges. -/
def TaggedNoOverlap (ts : List TaggedEntity) : Prop :=
  ts.Pairwise (fun a b => rangesOverlap a.range b.range = false)

/-! ### Lemmas about the parse waterfall -/

/-- Strategies whose classification comes back empty are skipped by the
waterfall. -/
lemma parseLoop_append_skipped (entities : List (String × Entity)) (input : String)
    (filt : Option (List String)) (ps₁ ps₂ : List IntentParser)
    (h1 : ∀ q ∈ ps₁, q.get_intent input filt = .ok none) :
    parseLoop entities input filt (ps₁ ++ ps₂) = parseLoop entities input filt ps₂ := by
  induction ps₁ with
  | nil => rfl
  | cons q qs ih =>
      have hq : q.get_intent input filt = .ok none := h1 q (by simp)
      simp only [List.cons_append, parseLoop, hq]
      exact ih (fun p hp => h1 p (by simp [hp]))

lemma parseLoop_ok_characterization (entities : List (String × Entity)) (input : String)
    (filt : Option (List String)) (ps : List IntentParser) (r : IntentParserResult)
    (h : parseLoop entities input filt ps = .ok r) :
    (r.slots = none ↔ r.intent = none) ∧
    (r.intent = none ↔ ∀ p ∈ ps, p.get_intent input filt = .ok none) := by
  induction ps with
  | nil =>
      simp only [parseLoop, Except.ok.injEq] at h
      subst h
      simp
  | cons p rest ih =>
      simp only [parseLoop] at h
      cases hi : p.get_intent input filt with
      | error err => rw [hi] at h; exact absurd h (by simp)
      | ok cls =>
          cases cls with
          | none =>
              rw [hi] at h
              obtain ⟨h1, h2⟩ := ih h
              refine ⟨h1, ?_⟩
              rw [h2]
              constructor
              · intro hall q hq
                rcases List.mem_cons.mp hq with hq | hq
                · rw [hq]; exact hi
                · exact hall q hq
              · intro hall q hq; exact hall q (by simp [hq])
          | some c =>
              rw [hi] at h
              dsimp only at h
              cases hs : p.get_slots input c.intent_name with
              | error err => rw [hs] at h; exact absurd h (by simp)
              | ok slots =>
                  rw [hs] at h
                  simp only [Except.ok.injEq] at h
                  subst h
                  constructor
                  · simp
                  · constructor
                    · intro habs; exact absurd habs (by simp)
                    · intro hall
                      have := hall p (by simp)
                      rw [hi] at this
                      exact absurd this (by simp)

/-- C5: `parse` is a strict waterfall: the first strategy in configured order
whose classification call returns a non-empty classification determines both
the intent and the slots of the result (the slots being that same strategy's
slot list, normalized); the strategies after it do not influence the result,
and no aggregation across strategies occurs. -/
theorem parse_waterfall_first_strategy_wins (e : SnipsNLUEngine) (input : String)
    (filt : Option (List String)) (ps₁ ps₂ : List IntentParser) (p : IntentParser)
    (c : IntentClassifierResult)
    (hps : e.parsers = ps₁ ++ p :: ps₂)
    (h1 : ∀ q ∈ ps₁, q.get_intent input filt = .ok none)
    (hp : p.get_intent input filt = .ok (some c)) :
    parse e input filt = (p.get_slots input c.intent_name).map
      fun slots =>
        { input := input
          intent := some c
          slots := some (slots.filterMap (normalizeSlot e.entities)) } := by
  have hne : e.parsers.isEmpty = false := by
    rw [hps]; cases ps₁ <;> rfl
  unfold parse
  rw [hne, hps]
  simp only [Bool.false_eq_true, if_false]
  rw [parseLoop_append_skipped e.entities input filt ps₁ (p :: ps₂) h1]
  simp only [parseLoop, hp]
  cases hs : p.get_slots input c.intent_name <;> simp [Except.map]

theorem parse_waterfall_first_strategy_wins_witness :
    parse c5Engine "Make me two cups of coffee please" none =
      (c5ParserB.get_slots "Make me two cups of coffee please" "MakeCoffee").map
        fun slots =>
          { input := "Make me two cups of coffee please"
            intent := some { intent_name := "MakeCoffee", probability := 1 }
            slots := some (slots.filterMap (normalizeSlot c5Engine.entities)) } :=
  parse_waterfall_first_strategy_wins c5Engine "Make me two cups of coffee please" none
    [c5ParserA] [] c5ParserB { intent_name := "MakeCoffee", probability := 1 } rfl
    (by intro q hq
        have : q = c5ParserA := by simpa using hq
        rw [this]; rfl)
    rfl

/-- C6: in every successful `parse` result the slots are `none` exactly when
the intent is `none`; this happens exactly when the strategy list is empty or
no strategy produced a classification, and with an empty strategy list
`parse` returns `\x7binput, intent: None, slots: None\x7d` without error. -/
theorem parse_slots_none_iff_intent_none (e : SnipsNLUEngine) (input : String)
    (filt : Option (List String)) :
    (∀ r, parse e input filt = .ok r →
      ((r.slots = none ↔ r.intent = none) ∧
       (r.intent = none ↔
         (e.parsers = [] ∨ ∀ p ∈ e.parsers, p.get_intent input filt = .ok none)))) ∧
    (e.parsers = [] →
      parse e input filt = .ok { input := input, intent := none, slots := none }) := by
  constructor
  · intro r hr
    unfold parse at hr
    cases hps : e.parsers with
    | nil =>
        rw [hps] at hr
        simp only [List.isEmpty_nil, if_true, Except.ok.injEq] at hr
        subst hr
        simp
    | cons p rest =>
        rw [hps] at hr
        simp only [List.isEmpty_cons, Bool.false_eq_true, if_false] at hr
        obtain ⟨h1, h2⟩ := parseLoop_ok_characterization e.entities input filt (p :: rest) r hr
        refine ⟨h1, ?_⟩
        rw [h2]
        constructor
        · intro hall; exact Or.inr hall
        · rintro (habs | hall)
          · exact absurd habs (by simp)
          · exact hall
  · intro hps
    unfold parse
    rw [hps]
    rfl

theorem parse_slots_none_iff_intent_none_witness :
    parse c6Engine "hello" none = .ok { input := "hello", intent := none, slots := none } :=
  (parse_slots_none_iff_intent_none c6Engine "hello" none).2 rfl

/-! ### C1: slot normalization in parse -/

/-- Counterexample to C1 as stated: `coffee_type` is an extensible Catalog
entity, the strategy's slot has `raw_value = "decaf"` (not in the utterance
map) and value `Custom "XYZ"`; `parse` keeps the slot with its value
untouched, so the returned value is `Custom "XYZ"`, not `Custom raw_value =
Custom "decaf"` as the claim requires. -/
theorem parse_extensible_miss_keeps_strategy_value :
    parse c1Engine "decaf" none =
      .ok { input := "decaf"
            intent := some { intent_name := "MakeCoffee", probability := 1 }
            slots := some [{ raw_value := "decaf"
                             value := SlotValue.Custom "XYZ"
                             range := some (0, 5)
                             entity := "coffee_type"
                             slot_name := "ct" }] } ∧
    SlotValue.Custom "XYZ" ≠ SlotValue.Custom "decaf" := by
  constructor
  · rfl
  · decide

/-- C1 (amended): every slot of the winning strategy is normalized against
the Entity Catalog: with the entity in the Catalog, an utterance-map hit on
`raw_value` replaces the value by `Custom(reference_value)`; a miss drops the
slot when the entity is not automatically extensible and keeps the slot
unchanged (value included) when it is; a slot of an uncatalogued entity
passes through unchanged. -/
theorem parse_normalizes_slots_against_catalog (e : SnipsNLUEngine) (input : String)
    (filt : Option (List String)) (ps₁ ps₂ : List IntentParser) (p : IntentParser)
    (c : IntentClassifierResult) (ss : List Slot)
    (hps : e.parsers = ps₁ ++ p :: ps₂)
    (h1 : ∀ q ∈ ps₁, q.get_intent input filt = .ok none)
    (hp : p.get_intent input filt = .ok (some c))
    (hs : p.get_slots input c.intent_name = .ok ss) :
    parse e input filt =
      .ok { input := input
            intent := some c
            slots := some (ss.filterMap (normalizeSlot e.entities)) } ∧
    ∀ slot : Slot,
      (∀ entity, lookupKey e.entities slot.entity = some entity →
        ((∀ reference_value,
            lookupKey entity.utterances slot.raw_value = some reference_value →
            normalizeSlot e.entities slot =
              some { slot with value := SlotValue.Custom reference_value }) ∧
         (lookupKey entity.utterances slot.raw_value = none →
            entity.automatically_extensible = true →
            normalizeSlot e.entities slot = some slot) ∧
         (lookupKey entity.utterances slot.raw_value = none →
            entity.automatically_extensible = false →
            normalizeSlot e.entities slot = none))) ∧
      (lookupKey e.entities slot.entity = none →
        normalizeSlot e.entities slot = some slot) := by
  constructor
  · rw [parse_waterfall_first_strategy_wins e input filt ps₁ ps₂ p c hps h1 hp, hs]
    rfl
  · intro slot
    constructor
    · intro entity hent
      refine ⟨?_, ?_, ?_⟩
      · intro reference_value href
        unfold normalizeSlot
        rw [hent]
        dsimp only
        rw [href]
      · intro href hext
        unfold normalizeSlot
        rw [hent]
        dsimp only
        rw [href, hext]
        rfl
      · intro href hext
        unfold normalizeSlot
        rw [hent]
        dsimp only
        rw [href, hext]
        rfl
    · intro hent
      unfold normalizeSlot
      rw [hent]

/-- Witness for the amended C1 at `c1Engine`: the extensible-miss slot is
kept unchanged and the uncatalogued pass-through holds. -/
theorem parse_normalizes_slots_against_catalog_witness :
    (parse c1Engine "decaf" none =
      .ok { input := "decaf"
            intent := some { intent_name := "MakeCoffee", probability := 1 }
            slots := some ([{ raw_value := "decaf"
                              value := SlotValue.Custom "XYZ"
                              range := some (0, 5)
                              entity := "coffee_type"
                              slot_name := "ct" }].filterMap
                             (normalizeSlot c1Engine.entities)) }) ∧
    normalizeSlot c1Engine.entities
      { raw_value := "decaf"
        value := SlotValue.Custom "XYZ"
        range := some (0, 5)
        entity := "coffee_type"
        slot_name := "ct" } =
      some { raw_value := "decaf"
             value := SlotValue.Custom "XYZ"
             range := some (0, 5)
             entity := "coffee_type"
             slot_name := "ct" } := by
  have h := parse_normalizes_slots_against_catalog c1Engine "decaf" none [] [] c1Parser
    { intent_name := "MakeCoffee", probability := 1 }
    [{ raw_value := "decaf"
       value := SlotValue.Custom "XYZ"
       range := some (0, 5)
       entity := "coffee_type"
       slot_name := "ct" }]
    rfl (by intro q hq; exact absurd hq (by simp)) rfl rfl
  refine ⟨h.1, ?_⟩
  exact (((h.2 { raw_value := "decaf"
                 value := SlotValue.Custom "XYZ"
                 range := some (0, 5)
                 entity := "coffee_type"
                 slot_name := "ct" }).1
    { utterances := [("espresso", "Espresso")], automatically_extensible := true }
    (by decide)).2.1 (by decide) rfl)

/-! ### C2: high-data regime returns the classifier baseline -/

/-- C2: with the threshold defaulting to 5 when not supplied, an intent whose
training-data size reaches the threshold makes `tag` return exactly the
classifier baseline: the slots of `parse` restricted to that single intent,
each converted to a `TaggedEntity` carrying `slot_name: some`, with no
heuristic augmentation. -/
theorem tag_high_data_returns_baseline (e : SnipsNLUEngine) (text intent : String)
    (thOpt : Option Nat) (n : Nat) (mapping : List (String × String))
    (hn : lookupKey e.intents_data_sizes intent = some n)
    (hm : lookupKey e.slot_name_mapping intent = some mapping)
    (hth : thOpt.getD DEFAULT_THRESHOLD ≤ n) :
    tag e text intent thOpt =
      (parse e text (some [intent])).map
        fun result => (result.slots.map (fun slots => slots.map slotToTagged)).getD [] := by
  unfold tag
  rw [hn]
  dsimp only
  rw [hm]
  dsimp only
  cases hp : parse e text (some [intent]) with
  | error err => rfl
  | ok result =>
      dsimp only [Except.map]
      rw [if_pos hth]

theorem tag_high_data_returns_baseline_witness :
    tag c2Engine "espresso" "MakeCoffee" none =
      (parse c2Engine "espresso" (some ["MakeCoffee"])).map
        fun result => (result.slots.map (fun slots => slots.map slotToTagged)).getD [] :=
  tag_high_data_returns_baseline c2Engine "espresso" "MakeCoffee" none 5
    [("ct", "coffee_type")] rfl rfl (by decide)

/-! ### C8: unknown intent / unknown slot errors -/

/-- C8: `extract_slot` with an intent absent from the slot-name mapping fails
with the Unknown-intent error and with an unregistered slot name of a known
intent fails with the Unknown-slot error, never returning a value; `tag`
fails with the Unknown-intent error when the intent is absent from the
data-size table or from the slot-name mapping. -/
theorem unknown_intent_and_slot_fail (e : SnipsNLUEngine)
    (input text intent sname : String) (thOpt : Option Nat) :
    (lookupKey e.slot_name_mapping intent = none →
      extract_slot e input intent sname = .error ("Unknown intent: " ++ intent)) ∧
    (∀ mapping, lookupKey e.slot_name_mapping intent = some mapping →
      lookupKey mapping sname = none →
      extract_slot e input intent sname = .error ("Unknown slot: " ++ sname)) ∧
    (lookupKey e.intents_data_sizes intent = none →
      tag e text intent thOpt = .error ("Unknown intent: " ++ intent)) ∧
    (∀ n, lookupKey e.intents_data_sizes intent = some n →
      lookupKey e.slot_name_mapping intent = none →
      tag e text intent thOpt = .error ("Unknown intent: " ++ intent)) := by
  refine ⟨?_, ?_, ?_, ?_⟩
  · intro h
    unfold extract_slot
    rw [h]
  · intro mapping hm hs
    unfold extract_slot
    rw [hm]
    dsimp only
    rw [hs]
  · intro h
    unfold tag
    rw [h]
  · intro n hn hm
    unfold tag
    rw [hn]
    dsimp only
    rw [hm]

/-- Witness for C8 at a concrete engine: "other" is not a configured intent
and "missing" is not a registered slot of the configured intent. -/
theorem unknown_intent_and_slot_fail_witness :
    (extract_slot c2Engine "espresso" "other" "ct" = .error ("Unknown intent: " ++ "other")) ∧
    (extract_slot c2Engine "espresso" "MakeCoffee" "missing" =
      .error ("Unknown slot: " ++ "missing")) ∧
    (tag c2Engine "espresso" "other" none = .error ("Unknown intent: " ++ "other")) := by
  refine ⟨?_, ?_, ?_⟩
  · exact (unknown_intent_and_slot_fail c2Engine "espresso" "espresso" "other" "ct" none).1 rfl
  · exact (unknown_intent_and_slot_fail c2Engine "espresso" "espresso" "MakeCoffee"
      "missing" none).2.1 [("ct", "coffee_type")] rfl rfl
  · exact (unknown_intent_and_slot_fail c2Engine "espresso" "espresso" "other" "ct"
      none).2.2.1 rfl

/-! ### C7 and C10: extract_slot -/

/-- C7: after resolving the entity for the intent and slot name,
`extract_slot` on a Catalog entity matches the entire input against the
utterance map — a hit yields a Slot with range `none` and the canonical
value, a miss echoes the raw input only for an extensible entity and yields
nothing otherwise; on an uncatalogued entity it takes the builtin
recognizer's first match restricted to that entity kind and yields a Slot
whose raw value is the substring of the input covered by the match's range,
with range `none` and the builtin structured value, or nothing without a
match. -/
theorem extract_slot_characterization (e : SnipsNLUEngine)
    (input intent sname : String) (mapping : List (String × String))
    (entity_name : String)
    (hm : lookupKey e.slot_name_mapping intent = some mapping)
    (hsn : lookupKey mapping sname = some entity_name) :
    (∀ ce, lookupKey e.entities entity_name = some ce →
      ((∀ reference_value, lookupKey ce.utterances input = some reference_value →
          extract_slot e input intent sname =
            .ok (some { raw_value := input
                        value := SlotValue.Custom reference_value
                        range := none
                        entity := entity_name
                        slot_name := sname })) ∧
       (lookupKey ce.utterances input = none → ce.automatically_extensible = true →
          extract_slot e input intent sname =
            .ok (some { raw_value := input
                        value := SlotValue.Custom input
                        range := none
                        entity := entity_name
                        slot_name := sname })) ∧
       (lookupKey ce.utterances input = none → ce.automatically_extensible = false →
          extract_slot e input intent sname = .ok none))) ∧
    (lookupKey e.entities entity_name = none →
      ∀ kind, fromIdentifier entity_name = .ok kind →
        extract_slot e input intent sname =
          .ok ((e.builtinEntityParser.extract_entities input (some [kind])).head?.map
            fun rustlin_entity =>
              { raw_value := substring_with_char_range input rustlin_entity.range
                value := SlotValue.Builtin rustlin_entity.entity
                range := none
                entity := entity_name
                slot_name := sname })) := by
  have hbase : ∀ rest : Except String (Option Slot),
      (match lookupKey e.slot_name_mapping intent with
        | none => Except.error ("Unknown intent: " ++ intent)
        | some m =>
          match lookupKey m sname with
          | none => Except.error ("Unknown slot: " ++ sname)
          | some en => rest) = rest := by
    intro rest
    rw [hm]
    dsimp only
    rw [hsn]
  constructor
  · intro ce hce
    refine ⟨?_, ?_, ?_⟩
    · intro reference_value href
      unfold extract_slot
      rw [hm]; dsimp only
      rw [hsn]; dsimp only
      rw [hce]; dsimp only
      unfold extract_custom_entity
      rw [href]
    · intro href hext
      unfold extract_slot
      rw [hm]; dsimp only
      rw [hsn]; dsimp only
      rw [hce]; dsimp only
      unfold extract_custom_entity
      rw [href]; dsimp only
      rw [hext]
      rfl
    · intro href hext
      unfold extract_slot
      rw [hm]; dsimp only
      rw [hsn]; dsimp only
      rw [hce]; dsimp only
      unfold extract_custom_entity
      rw [href]; dsimp only
      rw [hext]
      rfl
  · intro hce kind hkind
    unfold extract_slot
    rw [hm]; dsimp only
    rw [hsn]; dsimp only
    rw [hce]; dsimp only
    unfold extract_builtin_entity
    rw [hkind]

theorem extract_slot_characterization_witness :
    (extract_slot c7Engine "espresso" "MakeCoffee" "ct" =
      .ok (some { raw_value := "espresso"
                  value := SlotValue.Custom "Espresso"
                  range := none
                  entity := "coffee_type"
                  slot_name := "ct" })) ∧
    (extract_slot c7Engine "Make me two cups of coffee please" "MakeCoffee" "number_of_cups" =
      .ok ((c7Engine.builtinEntityParser.extract_entities
              "Make me two cups of coffee please" (some ["snips/number"])).head?.map
        fun rustlin_entity =>
          { raw_value := substring_with_char_range "Make me two cups of coffee please"
              rustlin_entity.range
            value := SlotValue.Builtin rustlin_entity.entity
            range := none
            entity := "snips/number"
            slot_name := "number_of_cups" })) := by
  constructor
  · exact ((extract_slot_characterization c7Engine "espresso" "MakeCoffee" "ct"
      [("ct", "coffee_type"), ("number_of_cups", "snips/number")] "coffee_type" rfl rfl).1
      { utterances := [("espresso", "Espresso")], automatically_extensible := false }
      (by decide)).1 "Espresso" (by decide)
  · exact (extract_slot_characterization c7Engine "Make me two cups of coffee please"
      "MakeCoffee" "number_of_cups"
      [("ct", "coffee_type"), ("number_of_cups", "snips/number")] "snips/number" rfl rfl).2
      (by decide) "snips/number" rfl

/-- C10: when the resolved entity is neither in the Catalog nor a recognized
builtin entity kind identifier, `extract_slot` fails with an error (it does
not return `none` or a Slot): the builtin delegation path is only total for
valid builtin identifiers. -/
theorem extract_slot_unrecognized_builtin_fails (e : SnipsNLUEngine)
    (input intent sname : String) (mapping : List (String × String))
    (entity_name : String)
    (hm : lookupKey e.slot_name_mapping intent = some mapping)
    (hsn : lookupKey mapping sname = some entity_name)
    (hce : lookupKey e.entities entity_name = none)
    (hkind : builtinEntityKindIdentifiers.contains entity_name = false) :
    extract_slot e input intent sname =
      .error ("Unknown entity kind: " ++ entity_name) := by
  unfold extract_slot
  rw [hm]; dsimp only
  rw [hsn]; dsimp only
  rw [hce]; dsimp only
  unfold extract_builtin_entity fromIdentifier
  rw [hkind]
  rfl

theorem extract_slot_unrecognized_builtin_fails_witness :
    extract_slot c10Engine "anything" "I" "s" =
      .error ("Unknown entity kind: " ++ "mystery") :=
  extract_slot_unrecognized_builtin_fails c10Engine "anything" "I" "s"
    [("s", "mystery")] "mystery" rfl rfl rfl (by decide)

/-! ### C4: ambiguous n-gram matches are discarded -/

/-- Once an n-gram already has a matching entity, a further match makes it
ambiguous and the scan ends with no candidate (the Rust break that clears
`ngram_entity`). -/
lemma ngramEntityLoop_some_acc_of_match (text : String) (tokens : List Token)
    (ngram : String) (idxs : List Nat) (l : List (String × Entity))
    (hl : 1 ≤ l.countP (fun p => containsKey p.2.utterances ngram)) :
    ∀ c : TaggedEntity, ngramEntityLoop text tokens ngram idxs l (some c) = none := by
  induction l with
  | nil => simp [List.countP_nil] at hl
  | cons hd tl ih =>
      intro c
      obtain ⟨nm, ed⟩ := hd
      rw [List.countP_cons] at hl
      unfold ngramEntityLoop
      cases hc : containsKey ed.utterances ngram with
      | false =>
          simp only [Bool.false_eq_true, if_false]
          apply ih
          simpa [hc] using hl
      | true => simp

/-- An n-gram with an empty index list never yields a candidate. -/
lemma ngramEntityLoop_nil_indexes (text : String) (tokens : List Token)
    (ngram : String) (l : List (String × Entity)) :
    ngramEntityLoop text tokens ngram [] l none = none := by
  induction l with
  | nil => rfl
  | cons hd tl ih =>
      obtain ⟨nm, ed⟩ := hd
      unfold ngramEntityLoop
      cases hc : containsKey ed.utterances ngram with
      | false => simpa using ih
      | true =>
          simp only [if_true]
          exact ih

/-- C4: an n-gram whose surface string is an utterance of two or more
distinct entities among the intent's entities never yields a candidate
`TaggedEntity` in the seen-entity scan: the ambiguous match is discarded
entirely. -/
theorem ambiguous_ngram_yields_no_candidate (text : String) (tokens : List Token)
    (entities : List (String × Entity)) (ngram : String) (idxs : List Nat)
    (h : 2 ≤ entities.countP (fun p => containsKey p.2.utterances ngram)) :
    ngramEntityFor text tokens entities (ngram, idxs) = none := by
  unfold ngramEntityFor
  induction entities with
  | nil => simp [List.countP_nil] at h
  | cons hd tl ih =>
      obtain ⟨nm, ed⟩ := hd
      rw [List.countP_cons] at h
      unfold ngramEntityLoop
      cases hc : containsKey ed.utterances ngram with
      | false =>
          simp only [Bool.false_eq_true, if_false]
          apply ih
          simpa [hc] using h
      | true =>
          have htl : 1 ≤ tl.countP (fun p => containsKey p.2.utterances ngram) := by
            simp only [hc, if_true] at h
            omega
          simp only [if_true, Option.isSome_none, Bool.false_eq_true, if_false]
          cases idxs with
          | nil =>
              have : mkNgramCandidate text tokens [] nm = none := rfl
              rw [this]
              exact ngramEntityLoop_nil_indexes text tokens ngram tl
          | cons i is =>
              have : mkNgramCandidate text tokens (i :: is) nm =
                  some { value := substring_with_char_range text
                           ((tokenAt tokens i).char_range.1,
                            (tokenAt tokens ((i :: is).getLast (by simp))).char_range.2)
                         range := some ((tokenAt tokens i).char_range.1,
                            (tokenAt tokens ((i :: is).getLast (by simp))).char_range.2)
                         entity := nm
                         slot_name := none } := rfl
              rw [this]
              exact ngramEntityLoop_some_acc_of_match text tokens ngram (i :: is) tl htl _

/-- Witness for C4: the surface string "apple" is an utterance of both the
`fruit` and the `brand` entity, so no candidate is produced for it. -/
theorem ambiguous_ngram_yields_no_candidate_witness :
    ngramEntityFor "apple" (tokenize "apple")
      [("fruit", { utterances := [("apple", "Apple")], automatically_extensible := false }),
       ("brand", { utterances := [("apple", "AppleInc")], automatically_extensible := false })]
      ("apple", [0]) = none :=
  ambiguous_ngram_yields_no_candidate "apple" (tokenize "apple")
    [("fruit", { utterances := [("apple", "Apple")], automatically_extensible := false }),
     ("brand", { utterances := [("apple", "AppleInc")], automatically_extensible := false })]
    "apple" [0] (by decide)

/-! ### C9: round-trip of seen-entity span extraction -/

/-- Every member of a merged list comes from the accepted list or from the
candidate list: the merge never invents entries. -/
lemma enrich_entities_mem (cands : List TaggedEntity) :
    ∀ (acc : List TaggedEntity) (t : TaggedEntity),
      t ∈ enrich_entities acc cands → t ∈ acc ∨ t ∈ cands := by
  induction cands with
  | nil => intro acc t h; exact Or.inl h
  | cons c cs ih =>
      intro acc t h
      have h' : t ∈ enrich_entities
          (if acc.any (fun u => rangesOverlap u.range c.range) then acc else acc ++ [c]) cs := h
      rcases ih _ t h' with hacc | hcs
      · by_cases hov : acc.any (fun u => rangesOverlap u.range c.range) = true
        · rw [if_pos hov] at hacc
          exact Or.inl hacc
        · rw [if_neg hov] at hacc
          rcases List.mem_append.mp hacc with h1 | h1
          · exact Or.inl h1
          · simp only [List.mem_singleton] at h1
            exact Or.inr (by simp [h1])
      · exact Or.inr (by simp [hcs])

lemma mem_insertByLe {α : Type} (le : α → α → Bool) (x a : α) (l : List α)
    (h : a ∈ insertByLe le x l) : a = x ∨ a ∈ l := by
  induction l with
  | nil =>
      unfold insertByLe at h
      simp only [List.mem_singleton] at h
      exact Or.inl h
  | cons y ys ih =>
      unfold insertByLe at h
      by_cases hle : le x y = true
      · rw [if_pos hle] at h
        rcases List.mem_cons.mp h with h1 | h1
        · exact Or.inl h1
        · exact Or.inr h1
      · rw [if_neg hle] at h
        rcases List.mem_cons.mp h with h1 | h1
        · exact Or.inr (by simp [h1])
        · rcases ih h1 with h2 | h2
          · exact Or.inl h2
          · exact Or.inr (by simp [h2])

/-- A stable sort permutes: every member of the sorted list was in the
original one. -/
lemma mem_sortByLe {α : Type} (le : α → α → Bool) (a : α) (l : List α)
    (h : a ∈ sortByLe le l) : a ∈ l := by
  induction l with
  | nil =>
      unfold sortByLe at h
      simp at h
  | cons x xs ih =>
      unfold sortByLe at h
      rcases mem_insertByLe le x a _ h with h1 | h1
      · simp [h1]
      · exact List.mem_cons_of_mem _ (ih h1)

/-- A produced n-gram candidate always has the shape built at
nlu_engine.rs lines 250-261: span from the first index's token start to the
last index's token end, value the substring of the text over that span. -/
lemma mkNgramCandidate_some_shape (text : String) (tokens : List Token)
    (idxs : List Nat) (nm : String) (c : TaggedEntity)
    (h : mkNgramCandidate text tokens idxs nm = some c) :
    ∃ first last,
      idxs.head? = some first ∧ idxs.getLast? = some last ∧
      c = { value := substring_with_char_range text
              ((tokenAt tokens first).char_range.1, (tokenAt tokens last).char_range.2)
            range := some ((tokenAt tokens first).char_range.1,
                           (tokenAt tokens last).char_range.2)
            entity := nm
            slot_name := none } := by
  unfold mkNgramCandidate at h
  cases hh : idxs.head? with
  | none =>
      rw [hh] at h
      exact absurd h (by simp)
  | some first =>
      cases hl : idxs.getLast? with
      | none =>
          rw [hh, hl] at h
          exact absurd h (by simp)
      | some last =>
          rw [hh, hl] at h
          dsimp only at h
          exact ⟨first, last, rfl, rfl, (Option.some.injEq _ _ ▸ h.symm)⟩

/-- A non-`none` outcome of the entity scan is either the incoming
accumulator or an n-gram candidate for some entity name. -/
lemma ngramEntityLoop_some_shape (text : String) (tokens : List Token)
    (ngram : String) (idxs : List Nat) (l : List (String × Entity)) :
    ∀ (acc : Option TaggedEntity) (c : TaggedEntity),
      ngramEntityLoop text tokens ngram idxs l acc = some c →
      acc = some c ∨ ∃ nm, mkNgramCandidate text tokens idxs nm = some c := by
  induction l with
  | nil => intro acc c h; exact Or.inl h
  | cons hd tl ih =>
      intro acc c h
      obtain ⟨nm, ed⟩ := hd
      unfold ngramEntityLoop at h
      cases hc : containsKey ed.utterances ngram with
      | false =>
          rw [hc] at h
          simp only [Bool.false_eq_true, if_false] at h
          exact ih acc c h
      | true =>
          rw [hc] at h
          simp only [if_true] at h
          cases hacc : acc.isSome with
          | true =>
              rw [hacc] at h
              simp at h
          | false =>
              rw [hacc] at h
              simp only [Bool.false_eq_true, if_false] at h
              cases hcand : mkNgramCandidate text tokens idxs nm with
              | none =>
                  rw [hcand] at h
                  exact ih acc c h
              | some c0 =>
                  rw [hcand] at h
                  rcases ih (some c0) c h with h1 | h1
                  · exact Or.inr ⟨nm, by rw [hcand, h1]⟩
                  · exact Or.inr h1

/-- Every member of the seen-entity fold is in the starting accumulator or is
the candidate of some enumerated n-gram. -/
lemma tag_seen_fold_mem (text : String) (tokens : List Token)
    (entities : List (String × Entity)) :
    ∀ (l : List (String × List Nat)) (acc : List TaggedEntity) (t : TaggedEntity),
      t ∈ l.foldl
        (fun tagged_entities ng =>
          match ngramEntityFor text tokens entities ng with
          | some ngram_entity => enrich_entities tagged_entities [ngram_entity]
          | none => tagged_entities) acc →
      t ∈ acc ∨ ∃ ng ∈ l, ngramEntityFor text tokens entities ng = some t := by
  intro l
  induction l with
  | nil => intro acc t h; exact Or.inl h
  | cons ng ngs ih =>
      intro acc t h
      rw [List.foldl_cons] at h
      rcases ih _ t h with hacc | ⟨ng1, hmem, hsome⟩
      · cases hcand : ngramEntityFor text tokens entities ng with
        | none =>
            rw [hcand] at hacc
            exact Or.inl hacc
        | some c =>
            rw [hcand] at hacc
            rcases enrich_entities_mem [c] acc t hacc with h1 | h1
            · exact Or.inl h1
            · simp only [List.mem_singleton] at h1
              subst h1
              exact Or.inr ⟨ng, by simp, hcand⟩
      · exact Or.inr ⟨ng1, by simp [hmem], hsome⟩

/-- C9: every `TaggedEntity` produced by seen-entity matching with a range
set has its value equal to the substring of the original text over that
range, and the range runs from the first matched token's start boundary to
the last matched token's end boundary of an enumerated n-gram. -/
theorem tag_seen_entities_roundtrip (e : SnipsNLUEngine) (text : String)
    (intent_entities : List String) (t : TaggedEntity) (r : Nat × Nat)
    (ht : t ∈ tag_seen_entities e text intent_entities)
    (hr : t.range = some r) :
    t.value = substring_with_char_range text r ∧
    ∃ ngram idxs first last,
      (ngram, idxs) ∈ compute_all_ngrams ((tokenize text).map Token.value)
        (tokenize text).length ∧
      idxs.head? = some first ∧ idxs.getLast? = some last ∧
      r = ((tokenAt (tokenize text) first).char_range.1,
           (tokenAt (tokenize text) last).char_range.2) := by
  unfold tag_seen_entities at ht
  rcases tag_seen_fold_mem text (tokenize text)
      (e.entities.filter (fun p => intent_entities.contains p.1)) _ [] t ht with
    habs | ⟨ng, hmem, hsome⟩
  · simp at habs
  · obtain ⟨ngram, idxs⟩ := ng
    have hng : (ngram, idxs) ∈ compute_all_ngrams ((tokenize text).map Token.value)
        (tokenize text).length :=
      mem_sortByLe _ _ _ hmem
    rcases ngramEntityLoop_some_shape text (tokenize text) ngram idxs _ none t hsome with
      habs | ⟨nm, hcand⟩
    · exact absurd habs (by simp)
    · rcases mkNgramCandidate_some_shape text (tokenize text) idxs nm t hcand with
        ⟨first, last, hh, hl, hc⟩
      subst hc
      simp only [Option.some.injEq] at hr
      subst hr
      exact ⟨rfl, ngram, idxs, first, last, hng, hh, hl, rfl⟩

theorem tag_seen_entities_roundtrip_witness :
    ({ value := "apple", range := some (0, 5), entity := "fruit",
       slot_name := none } : TaggedEntity).value =
      substring_with_char_range "apple pie" (0, 5) ∧
    ∃ ngram idxs first last,
      (ngram, idxs) ∈ compute_all_ngrams ((tokenize "apple pie").map Token.value)
        (tokenize "apple pie").length ∧
      idxs.head? = some first ∧ idxs.getLast? = some last ∧
      (0, 5) = ((tokenAt (tokenize "apple pie") first).char_range.1,
                (tokenAt (tokenize "apple pie") last).char_range.2) :=
  tag_seen_entities_roundtrip c9Engine "apple pie" ["fruit"]
    { value := "apple", range := some (0, 5), entity := "fruit", slot_name := none }
    (0, 5) (by decide) rfl

/-! ### C3: no overlapping ranges in the low-data branch -/

/-- The merge primitive preserves the non-overlap invariant: a candidate is
accepted only when it overlaps no already-accepted range. -/
lemma enrich_entities_no_overlap (cands : List TaggedEntity) :
    ∀ acc : List TaggedEntity, TaggedNoOverlap acc →
      TaggedNoOverlap (enrich_entities acc cands) := by
  induction cands with
  | nil => intro acc h; exact h
  | cons c cs ih =>
      intro acc h
      have hstep : TaggedNoOverlap
          (if acc.any (fun u => rangesOverlap u.range c.range) then acc else acc ++ [c]) := by
        by_cases hov : acc.any (fun u => rangesOverlap u.range c.range) = true
        · rw [if_pos hov]
          exact h
        · rw [if_neg hov]
          have hall : ∀ u ∈ acc, rangesOverlap u.range c.range = false := by
            have := List.any_eq_false.mp (Bool.eq_false_iff.mpr hov)
            intro u hu
            exact Bool.eq_false_iff.mpr (this u hu)
          refine List.pairwise_append.mpr ⟨h, List.pairwise_singleton _ _, ?_⟩
          intro a ha b hb
          simp only [List.mem_singleton] at hb
          subst hb
          exact hall a ha
      exact ih _ hstep

/-- The seen-entity pass produces a non-overlapping list: it starts from the
empty list and only ever inserts through the merge primitive. -/
lemma tag_seen_entities_no_overlap (e : SnipsNLUEngine) (text : String)
    (intent_entities : List String) :
    TaggedNoOverlap (tag_seen_entities e text intent_entities) := by
  have hfold : ∀ (l1 : List (String × List Nat)) (acc : List TaggedEntity),
      TaggedNoOverlap acc →
      TaggedNoOverlap (l1.foldl
        (fun tagged_entities ng =>
          match ngramEntityFor text (tokenize text)
              (e.entities.filter (fun p => intent_entities.contains p.1)) ng with
          | some ngram_entity => enrich_entities tagged_entities [ngram_entity]
          | none => tagged_entities) acc) := by
    intro l1
    induction l1 with
    | nil => intro acc h; exact h
    | cons ng ngs ih =>
        intro acc h
        rw [List.foldl_cons]
        apply ih
        cases hcand : ngramEntityFor text (tokenize text)
            (e.entities.filter (fun p => intent_entities.contains p.1)) ng with
        | none => exact h
        | some c => exact enrich_entities_no_overlap [c] acc h
  unfold tag_seen_entities
  exact hfold _ [] List.Pairwise.nil

/-- Disambiguation only rewrites slot names; ranges are untouched, so the
non-overlap invariant survives it. -/
lemma disambiguateOne_range (m : List (String × String)) (t : TaggedEntity) :
    (disambiguateOne m t).range = t.range := by
  unfold disambiguateOne
  cases hts : t.slot_name with
  | some sn => rfl
  | none =>
      dsimp only
      cases (m.find? (fun p => p.2 == t.entity)).map Prod.fst <;> rfl

lemma disambiguate_preserves_no_overlap (ts : List TaggedEntity)
    (m : List (String × String)) (h : TaggedNoOverlap ts) :
    TaggedNoOverlap (disambiguate_tagged_entities ts m) := by
  unfold disambiguate_tagged_entities TaggedNoOverlap
  rw [List.pairwise_map]
  exact h.imp (fun {a b} hab => by
    rw [disambiguateOne_range m a, disambiguateOne_range m b]
    exact hab)

/-- C3: in the low-data branch (training-data size strictly below the
threshold), no two `TaggedEntity` items of the sequence returned by `tag`
have overlapping character ranges: seen-entity candidates are inserted
first, builtin candidates next and the classifier baseline last, each
accepted only when it overlaps no already-accepted range. -/
theorem tag_low_data_no_overlap (e : SnipsNLUEngine) (text intent : String)
    (thOpt : Option Nat) (n : Nat) (ts : List TaggedEntity)
    (hn : lookupKey e.intents_data_sizes intent = some n)
    (hlow : n < thOpt.getD DEFAULT_THRESHOLD)
    (ht : tag e text intent thOpt = .ok ts) :
    TaggedNoOverlap ts := by
  unfold tag at ht
  rw [hn] at ht
  dsimp only at ht
  cases hm : lookupKey e.slot_name_mapping intent with
  | none =>
      rw [hm] at ht
      exact absurd ht (by simp)
  | some mapping =>
      rw [hm] at ht
      dsimp only at ht
      cases hp : parse e text (some [intent]) with
      | error err =>
          rw [hp] at ht
          exact absurd ht (by simp)
      | ok result =>
          rw [hp] at ht
          dsimp only at ht
          rw [if_neg (Nat.not_le.mpr hlow)] at ht
          simp only [Except.ok.injEq] at ht
          subst ht
          exact disambiguate_preserves_no_overlap _ _
            (enrich_entities_no_overlap _ _
              (enrich_entities_no_overlap _ _
                (tag_seen_entities_no_overlap e text (mapping.map Prod.snd))))

/-- Witness for C3 at `c9Engine`: the low-data output for "apple pie" merges
a seen-entity span, a builtin span and the (empty) baseline without overlap. -/
theorem tag_low_data_no_overlap_witness :
    TaggedNoOverlap
      [{ value := "apple", range := some (0, 5), entity := "fruit",
         slot_name := some "slot1" },
       { value := "pie", range := some (6, 9), entity := "snips/number",
         slot_name := none }] :=
  tag_low_data_no_overlap c9Engine "apple pie" "I" none 0
    [{ value := "apple", range := some (0, 5), entity := "fruit",
       slot_name := some "slot1" },
     { value := "pie", range := some (6, 9), entity := "snips/number",
       slot_name := none }]
    rfl (by decide) rfl

end SnipsNLU
